import Mathlib

/-!
Verification of openaleph-search against its specification.

This file shallowly embeds the parts of the `openaleph_search` package that
the checked claims are about:

* `schema_bucket` and the index-name helpers (`index/indexes.py`),
* the entity transformer `format_entity` (`transform/entity.py`) and the
  legacy transformer `format_proxy` (`index/entities.py`),
* the merge-safe mapping rewriter `rewrite_mapping_safe` (`index/util.py`,
  duplicated in `index/indexer.py`),
* the authorization filter builder `datasets_query` (`query/util.py`) and
  `SearchAuth.datasets_query` (`model.py`),
* `SOURCE_EXCLUDES` / `make_mapping` (`mapping.py`) and the `_source`
  block of `configure_schema_bucket` (`index/indexes.py`),
* the xref action builder `_index_form` (`index/xref.py`),
* `XrefQuery.get_filters` and its class constants (`query/queries.py`),
* the equality-filter builder `field_filter_query` (`query/util.py`,
  duplicated in `index/util.py`).

External collaborators (the FollowTheMoney schema registry, the name
analysis library, `banal.hash_data`, `fingerprints.generate`) are modelled
as parameters or as explicit structures, never hard-coded, except where a
claim needs a concrete instance.

Query DSL bodies and Elasticsearch mappings are JSON objects; they are
embedded as the inductive `JVal` below, with Python `None` rendered as
`JVal.null` (Python's `dict.get` returns `None` for a missing key, which
several source functions test with `is not None`).
-/

/-- JSON-like values, the payloads exchanged with the search backend.
Objects are association lists in insertion order, as Python dicts are. -/
inductive JVal where
  | null : JVal
  | bool : Bool → JVal
  | num : ℚ → JVal
  | str : String → JVal
  | arr : List JVal → JVal
  | obj : List (String × JVal) → JVal

/-- Test for `JVal.null`, the Python `is None` / `is not None` check. -/
def JVal.isNull : JVal → Bool
  | JVal.null => true
  | _ => false

/-- Dictionary lookup `d.get(k)`: the value stored under the first entry for
`k`, or `JVal.null` (Python `None`) when the key is absent. -/
def jget (kvs : List (String × JVal)) (k : String) : JVal :=
  match kvs.find? (fun kv => kv.1 = k) with
  | some kv => kv.2
  | none => JVal.null

/-- Lookup on a `JVal` that is expected to be an object; any other shape has
no keys. -/
def JVal.get : JVal → String → JVal
  | JVal.obj kvs, k => jget kvs k
  | _, _ => JVal.null

/-! ## Schema model and index buckets (`index/indexes.py`) -/

/-- The four entity index buckets (`BUCKETS` in `index/indexes.py`). -/
inductive Bucket where
  | things
  | intervals
  | documents
  | pages
deriving DecidableEq

/-- String tag of a bucket, as used inside index names. -/
def Bucket.tag : Bucket → String
  | Bucket.things => "things"
  | Bucket.intervals => "intervals"
  | Bucket.documents => "documents"
  | Bucket.pages => "pages"

/-- A schema of the external FollowTheMoney model, as consumed by this
package: its own name, the set `schema.names` of its name and all ancestor
names (what `schema.is_a` tests against), and the abstract flag. -/
structure FtmSchema where
  name : String
  names : List String
  abstract : Bool := false
deriving DecidableEq

/-- Membership test `schema.is_a(other)` of the external model: whether
`other` is the schema itself or one of its ancestors. -/
def FtmSchema.isA (s : FtmSchema) (t : String) : Bool :=
  s.names.contains t

/-- The page-like schema names (`PAGES` in `index/indexes.py`). -/
def PAGES : List String := ["Page", "Pages"]

/-- Bucket classification of a schema, translated from `schema_bucket` in
`index/indexes.py`: pages by name, then `Document`, then `Thing` (the source
comments this check with catching `Event`), then `Interval`, with `things`
as the catch-all. -/
def schema_bucket (s : FtmSchema) : Bucket :=
  if PAGES.contains s.name then Bucket.pages
  else if s.isA "Document" then Bucket.documents
  else if s.isA "Thing" then Bucket.things
  else if s.isA "Interval" then Bucket.intervals
  else Bucket.things

/-- Bucket classification in the order the specification states it (pages,
`Document`, `Interval`, `Thing`, catch-all) -- the claimed behaviour, kept
separate so it can be compared with `schema_bucket` above. -/
def schema_bucket_claimed (s : FtmSchema) : Bucket :=
  if PAGES.contains s.name then Bucket.pages
  else if s.isA "Document" then Bucket.documents
  else if s.isA "Interval" then Bucket.intervals
  else if s.isA "Thing" then Bucket.things
  else Bucket.things

/-- The `Event` schema of the FollowTheMoney model: a `Thing` and an
`Interval`, not a `Document`, not page-like (the source comment on
`schema_bucket` singles it out). -/
def eventSchema : FtmSchema :=
  { name := "Event", names := ["Event", "Interval", "Thing", "Analyzable"] }

/-- A plain `Person` schema instance of the external model. -/
def personSchema : FtmSchema :=
  { name := "Person"
    names := ["Person", "LegalEntity", "Thing", "Analyzable"] }

/-- The concrete `Pages` schema instance of the external model. -/
def pagesSchema : FtmSchema :=
  { name := "Pages", names := ["Pages", "Document", "Analyzable", "Thing"] }

/-! ## Index names (`index/util.py`, `index/indexes.py`) -/

/-- Installation-wide index configuration: the index name stem
(`settings.index_prefix`) and the version that is currently written
(`settings.index_write`). -/
structure IndexConfig where
  stem : String := "openaleph"
  index_write : String := "v2"

/-- Index naming, from `index_name` in `index/util.py`: the stem, the base
name and the version joined with dashes. -/
def index_name (cfg : IndexConfig) (name version : String) : String :=
  cfg.stem ++ "-" ++ name ++ "-" ++ version

/-- Index name of a bucket at a version, from `bucket_index` in
`index/indexes.py`. -/
def bucket_index (cfg : IndexConfig) (b : Bucket) (version : String) : String :=
  index_name cfg ("entity-" ++ b.tag) version

/-- Write index of a schema (`entities_write_index` composed with
`schema_index` in `index/indexes.py`); `schema_index` raises for abstract
schemas, hence the `Option`. -/
def schema_index (cfg : IndexConfig) (s : FtmSchema) (version : String) : Option String :=
  if s.abstract then none else some (bucket_index cfg (schema_bucket s) version)

/-! ## Entity model

An entity of the external FollowTheMoney model, as far as the transformer
consumes it: `to_full_dict(matchable=True)` places the property dict under
`properties` and the context values (`created_at`, `updated_at`, `role_id`,
`profile_id`, `collection_id`, `origin`) plus the name group at the top
level of the resulting dict. -/

/-- Input entity: id, schema, property values and the context fields the
transformer reads. -/
structure Entity where
  id : String
  schema : FtmSchema
  properties : List (String × List String)
  names : List String := []
  caption : String := ""
  created_at : List String := []
  updated_at : List String := []
  role_id : List String := []
  profile_id : List String := []
  collection_id : List String := []
  origin : List String := []
deriving DecidableEq

/-- External name-analysis interface used by `format_entity`
(`_get_symbols`, `index_name_keys`, `index_name_parts`, `phonetic_names`);
treated as an opaque collaborator per the specification. -/
structure NameLib where
  symbols : Entity → List String
  name_keys : FtmSchema → List String → List String
  name_parts : FtmSchema → List String → List String
  phonetic : FtmSchema → List String → List String

/-- Modelled from the spec: `valid_dataset` wraps the external
`followthemoney.dataset.util.dataset_name_check`, which is not under the
sources; per the specification a dataset name is valid when it is non-empty
and not the literal `default`. -/
def valid_dataset (d : String) : Bool :=
  d ≠ "" && d ≠ "default"

/-- Python `min` over a list of comparable values (first minimum wins);
`none` on the empty list, where Python raises and the source guards with a
length check. -/
def py_min {α : Type} [LinearOrder α] : List α → Option α
  | [] => none
  | x :: xs => some (xs.foldl (fun a b => if b < a then b else a) x)

/-- Python `max` over a list of comparable values (first maximum wins);
`none` on the empty list. -/
def py_max {α : Type} [LinearOrder α] : List α → Option α
  | [] => none
  | x :: xs => some (xs.foldl (fun a b => if b > a then b else a) x)

/-- First value of a property assoc list under a key (`dict.get`), `none`
when the key is absent. -/
def plist_get (ps : List (String × List String)) (k : String) : Option (List String) :=
  (ps.find? (fun kv => kv.1 = k)).map (fun kv => kv.2)

/-- Property dict after `properties.pop(k, [])`: every entry under `k`
removed. -/
def plist_pop (ps : List (String × List String)) (k : String) : List (String × List String) :=
  ps.filter (fun kv => kv.1 ≠ k)

/-! ## Entity transformer (`transform/entity.py`) -/

/-- Stored `_source` of an indexed entity, restricted to the fields the
claims concern; the numeric casts and geo points of the source (external
`to_number` conversions and latitude and longitude products) are not
modelled because no claim mentions them. -/
structure EntitySource where
  dataset : String
  schemata : List String
  caption : String
  names : List String
  name_symbols : List String
  name_keys : List String
  name_parts : List String
  name_phonetic : List String
  properties : List (String × List String)
  text : List String
  num_values : Nat
  role_id : Option String
  profile_id : Option String
  origin : List String
  created_at : Option String
  updated_at : Option String

/-- A bulk action produced by a transformer: `_id`, `_index`, the optional
`_routing` key and `_source`. `routing = none` models an action dict that
carries no `_routing` key at all. -/
structure EntityAction where
  id : String
  index : String
  routing : Option String
  source : EntitySource

/-- Result of `format_entity`: `skipped` is the `None` return for abstract
schemas, `invalid_dataset` the exception raised by `valid_dataset`, `ok`
the returned action. -/
inductive FormatResult where
  | skipped
  | invalid_dataset
  | ok (a : EntityAction)

/-- The entity transformer, translated from `format_entity` in
`transform/entity.py`: skip abstract schemas, validate the dataset, pop
`indexText` out of the properties into `text`, count the remaining leaf
values into `num_values`, reduce the context timestamps, and emit the
action with `_routing` set to the dataset. -/
def format_entity (cfg : IndexConfig) (lib : NameLib) (dataset : String)
    (e : Entity) : FormatResult :=
  if e.schema.abstract then FormatResult.skipped
  else if !valid_dataset dataset then FormatResult.invalid_dataset
  else
    let props := plist_pop e.properties "indexText"
    let text := (plist_get e.properties "indexText").getD []
    let created := e.created_at
    let updated := if e.updated_at.isEmpty then created else e.updated_at
    FormatResult.ok
      { id := e.id
        index := bucket_index cfg (schema_bucket e.schema) cfg.index_write
        routing := some dataset
        source :=
          { dataset := dataset
            schemata := e.schema.names
            caption := e.caption
            names := e.names
            name_symbols := lib.symbols e
            name_keys := lib.name_keys e.schema e.names
            name_parts := lib.name_parts e.schema e.names
            name_phonetic := lib.phonetic e.schema e.names
            properties := props
            text := text
            num_values := (props.map (fun kv => kv.2.length)).sum
            role_id := e.role_id.head?
            profile_id := e.profile_id.head?
            origin := e.origin
            created_at := py_min created
            updated_at := py_max updated } }

/-! ## Legacy entity transformer (`index/entities.py`) -/

/-- Stored `_source` of the legacy `format_proxy`, restricted to the fields
the claims concern (the numeric casts and geo points are again not
modelled; the legacy transformer computes no `num_values`). -/
structure ProxySource where
  dataset : String
  schemata : List String
  caption : String
  fingerprints : List String
  properties : List (String × List String)
  text : List String
  collection_id : String
  role_id : Option String
  profile_id : Option String
  origin : List String
  created_at : Option String
  updated_at : Option String

/-- A bulk action of the legacy transformer; `routing = none` models an
action dict carrying no `_routing` key. -/
structure ProxyAction where
  id : String
  index : String
  routing : Option String
  source : ProxySource

/-- Result of `format_proxy`: `skipped` for abstract schemas, otherwise the
action; the legacy transformer neither validates the dataset nor sets a
`_routing` key. -/
inductive ProxyResult where
  | skipped
  | ok (a : ProxyAction)

/-- Python `a or b` on an optional string: the fallback wins when the value
is missing or empty (falsy). -/
def py_or_str (a : Option String) (b : String) : String :=
  match a with
  | some s => if s = "" then b else s
  | none => b

/-- The legacy transformer, translated from `format_proxy` in
`index/entities.py`: skip abstract schemas, append the joined `indexText`
to `bodyText` for `Pages`, build fingerprints from the external generator
(a Python set; modelled as a deduplicated list), pop `indexText` into
`text`, reduce the context timestamps -- and return an action carrying no
`_routing` key (`routing := none`). `fpgen` is the external
`fingerprints.generate`. -/
def format_proxy (cfg : IndexConfig) (fpgen : String → Option String)
    (proxy : Entity) (dataset : String) : ProxyResult :=
  if proxy.schema.abstract then ProxyResult.skipped
  else
    let props0 :=
      if proxy.schema.name = "Pages" then
        proxy.properties ++
          [("bodyText", [String.intercalate " " ((plist_get proxy.properties "indexText").getD [])])]
      else proxy.properties
    let fps := ((proxy.names.filterMap fpgen) ++ proxy.names).dedup
    let props := plist_pop props0 "indexText"
    let text := (plist_get props0 "indexText").getD []
    let created := proxy.created_at
    let updated := if proxy.updated_at.isEmpty then created else proxy.updated_at
    ProxyResult.ok
      { id := proxy.id
        index := bucket_index cfg (schema_bucket proxy.schema) cfg.index_write
        routing := none
        source :=
          { dataset := dataset
            schemata := proxy.schema.names
            caption := proxy.caption
            fingerprints := fps
            properties := props
            text := text
            collection_id := py_or_str proxy.collection_id.head? dataset
            role_id := proxy.role_id.head?
            profile_id := proxy.profile_id.head?
            origin := proxy.origin
            created_at := py_min created
            updated_at := py_max updated } }


/-! ## Merge-safe mapping rewriting (`index/util.py`, `index/indexer.py`) -/

/-- The immutable mapping keys (`IMMUTABLE` in `rewrite_mapping_safe`). -/
def IMMUTABLE : List String := ["type", "analyzer", "normalizer", "index", "store"]

mutual

/-- Merge-safe mapping rewriter, translated from `rewrite_mapping_safe`
(identical in `index/util.py` and `index/indexer.py`): when both arguments
are dicts, every pending key is merged recursively against the existing
value, immutable keys with a non-`None` existing value are forced back to
that existing value, and existing keys absent from the pending dict are
appended; when either argument is not a dict, the pending value is
returned unchanged. -/
def rewrite_mapping_safe : JVal → JVal → JVal
  | JVal.obj ps, JVal.obj es =>
    JVal.obj (rewrite_entries ps es ++
      es.filter (fun kv => ps.all (fun pv => pv.1 ≠ kv.1)))
  | p, _ => p

/-- The pending-keys loop of `rewrite_mapping_safe`. -/
def rewrite_entries : List (String × JVal) → List (String × JVal) → List (String × JVal)
  | [], _ => []
  | (k, v) :: rest, es =>
    let old := jget es k
    let merged := rewrite_mapping_safe v old
    (k, if IMMUTABLE.contains k && !old.isNull then old else merged) ::
      rewrite_entries rest es

end

/-- Log warnings emitted by `rewrite_mapping_safe`: the source contains no
log statement anywhere in that function, so the emitted warnings are empty
for every input. -/
def rewrite_mapping_warnings (_pending _existing : JVal) : List String := []

/-! ## Authorization filter (`query/util.py`, `model.py`) -/

/-- The `match_all` query body. -/
def match_all_query : JVal := JVal.obj [("match_all", JVal.obj [])]

/-- The `match_none` query body. -/
def match_none_query : JVal := JVal.obj [("match_none", JVal.obj [])]

/-- Search filter for a dataset set, translated from `datasets_query` in
`query/util.py`: admins bypass authorization entirely, an empty dataset
list matches nothing, otherwise a `terms` filter on the given field. -/
def datasets_query (datasets : List String) (field : String := "collection_id")
    (auth_is_admin : Bool := false) : JVal :=
  if auth_is_admin then match_all_query
  else if datasets.isEmpty then match_none_query
  else JVal.obj [("terms", JVal.obj [(field, JVal.arr (datasets.map JVal.str))])]

/-- The dataset filter builder under the name `model.py` imports
(`auth_datasets_query`); that name is absent from `query/util.py`, whose
`datasets_query` has the identical signature and semantics, so the two are
modelled as the same function. -/
def auth_datasets_query (datasets : List String) (field : String)
    (auth_is_admin : Bool) : JVal :=
  datasets_query datasets field auth_is_admin

/-- Authorization context, translated from `SearchAuth` in `model.py`; the
`datasets` set is modelled as a list. -/
structure SearchAuth where
  datasets : List String := []
  logged_in : Bool := false
  is_admin : Bool := false

/-- Per-request authorization filter, translated from
`SearchAuth.datasets_query` in `model.py`: the dataset filter on the given
field, which defaults to `dataset`. -/
def SearchAuth.datasets_query (auth : SearchAuth) (field : String := "dataset") : JVal :=
  auth_datasets_query auth.datasets field auth.is_admin

/-! ## Mapping synthesis (`mapping.py`, `index/indexes.py`) -/

/-- The `_source` exclusion list, translated from `SOURCE_EXCLUDES` in
`mapping.py`: the group field of every registry group type (the groups of
the external registry are a parameter here), then `text` and the
synthesized name fields. -/
def SOURCE_EXCLUDES (groups : List String) : List String :=
  groups ++ ["text", "names", "name_keys", "name_parts", "name_symbols", "name_phonetic"]

/-- Entity mapping builder, translated from `make_mapping` in `mapping.py`;
the base property block is passed through as `props` (its individual field
configurations are not needed by any claim). -/
def make_mapping (groups : List String) (props : List (String × JVal)) : JVal :=
  JVal.obj
    [ ("date_detection", JVal.bool false)
    , ("dynamic", JVal.bool false)
    , ("_source", JVal.obj [("excludes", JVal.arr ((SOURCE_EXCLUDES groups).map JVal.str))])
    , ("properties", JVal.obj props) ]

/-- Per-bucket mapping of the legacy bucket configurator, translated from
the mapping literal inside `configure_schema_bucket` in
`index/indexes.py`; its `_source.excludes` is the literal list
`["text", "fingerprints"]` and the property block (per-schema and numeric
mappings) is passed through as `props`. The emitted mapping does not
depend on the bucket beyond `props`. -/
def configure_schema_bucket_mapping (_bucket : Bucket) (props : List (String × JVal)) : JVal :=
  JVal.obj
    [ ("date_detection", JVal.bool false)
    , ("dynamic", JVal.bool false)
    , ("_source", JVal.obj [("excludes", JVal.arr [JVal.str "text", JVal.str "fingerprints"])])
    , ("properties", JVal.obj props) ]

/-- Extract the `_source.excludes` string list of a mapping, `none` when
the path does not hold a string array. -/
def mapping_excludes (m : JVal) : Option (List String) :=
  match (m.get "_source").get "excludes" with
  | JVal.arr xs =>
    some (xs.filterMap (fun v => match v with | JVal.str s => some s | _ => none))
  | _ => none

/-- The group fields of the FollowTheMoney registry
(`registry.groups.values()` of the external library), as one concrete
instance for closed statements. -/
def ftmGroups : List String :=
  ["names", "addresses", "checksums", "countries", "dates", "emails",
   "entities", "identifiers", "ips", "languages", "mimetypes", "phones",
   "topics", "urls"]

/-! ## Xref store (`index/xref.py`) -/

/-- An entity as the xref writer reads it: id, caption, name and country
values, schema name. -/
structure XrefEntity where
  id : String
  caption : String
  names : List String := []
  countries : List String := []
  schema : String := ""
deriving DecidableEq

/-- A scored match pair as produced by the matcher. -/
structure XrefMatchRow where
  entity : XrefEntity
  matched : XrefEntity
  score : ℚ := 0
  doubt : ℚ := 0
  method : String := ""
  collection_id : String := ""
  entityset_ids : List String := []
deriving DecidableEq

/-- Stored `_source` of an xref record (`_index_form` in `index/xref.py`). -/
structure XrefSource where
  score : ℚ
  doubt : ℚ
  method : String
  random : Int
  entity_id : String
  schema : String
  collection_id : String
  entityset_ids : List String
  match_id : String
  match_collection_id : String
  countries : List String
  text : List String
deriving DecidableEq

/-- A bulk action of the xref writer. -/
structure XrefAction where
  id : String
  index : String
  source : XrefSource
  created_at : String
deriving DecidableEq

/-- Cap on the names copied into the xref text blob (`MAX_NAMES`). -/
def MAX_NAMES : Nat := 30

/-- Name of the xref index (`xref_index` in `index/xref.py`). -/
def xref_index (cfg : IndexConfig) : String :=
  index_name cfg "xref" "v1"

/-- One action of the xref writer, translated from the loop body of
`_index_form` in `index/xref.py`. `hash_data` is the external
`banal.hash_data`, a pure hash of the argument; `now` and `rand` are the
wall clock and `randint` draws, passed in as inputs. The Python `set`
unions for `text` and `countries` are modelled as deduplicated lists. -/
def xref_action (hash_data : String × String × String → String)
    (cfg : IndexConfig) (now : String) (rand : Int) (collection_id : String)
    (m : XrefMatchRow) : XrefAction :=
  { id := hash_data (m.entity.id, collection_id, m.matched.id)
    index := xref_index cfg
    created_at := now
    source :=
      { score := m.score
        doubt := m.doubt
        method := m.method
        random := rand
        entity_id := m.entity.id
        schema := m.matched.schema
        collection_id := collection_id
        entityset_ids := m.entityset_ids
        match_id := m.matched.id
        match_collection_id := m.collection_id
        countries := (m.entity.countries ++ m.matched.countries).dedup
        text := ([m.entity.caption, m.matched.caption] ++
          m.entity.names.take MAX_NAMES ++ m.matched.names.take MAX_NAMES).dedup } }

/-- A keyed document store, the model of the backend's document semantics:
writing an action upserts under the key `(_index, _id)`. -/
abbrev DocStore : Type := List ((String × String) × XrefSource)

/-- Upsert of an action into the store: the new version replaces any
record under the same `(_index, _id)` key. -/
def store_put (s : DocStore) (a : XrefAction) : DocStore :=
  ((a.index, a.id), a.source) :: s.filter (fun kv => kv.1 ≠ (a.index, a.id))

/-- Number of stored records under a key. -/
def store_count (s : DocStore) (key : String × String) : Nat :=
  (s.filter (fun kv => kv.1 = key)).length

/-! ## Xref query (`query/queries.py`) -/

/-- The score cutoff constant (`SCORE_CUTOFF` in `query/queries.py`). -/
def SCORE_CUTOFF : ℚ := 1 / 2

/-- The score cutoff filter appended by `XrefQuery.get_filters`:
`{"range": {"score": {"gt": SCORE_CUTOFF}}}`. -/
def score_cutoff_filter : JVal :=
  JVal.obj [("range", JVal.obj [("score", JVal.obj [("gt", JVal.num SCORE_CUTOFF)])])]

/-- The default sort of the xref query (`XrefQuery.SORT_DEFAULT`):
score, descending. -/
def XrefQuery_SORT_DEFAULT : List JVal :=
  [JVal.obj [("score", JVal.str "desc")]]

/-- The authorization field of the xref query (`XrefQuery.AUTHZ_FIELD`). -/
def XrefQuery_AUTHZ_FIELD : String := "match_dataset"

/-- Modelled from the spec: the base `Query` class (not under the sources;
only its subclasses are) applies authorization as a filter built from the
auth object on the class's `AUTHZ_FIELD`. -/
def query_authz_filter (auth : SearchAuth) (authz_field : String) : JVal :=
  auth.datasets_query authz_field

/-- The dataset term filter appended by `XrefQuery.get_filters`
(`{"term": {"dataset": self.dataset}}`; the constructor default for the
dataset is `None`). -/
def xref_dataset_term (dataset : Option String) : JVal :=
  JVal.obj [("term", JVal.obj [("dataset",
    match dataset with
    | some d => JVal.str d
    | none => JVal.null)])]

/-- Filter list of the xref query, translated from `XrefQuery.get_filters`
in `query/queries.py`: the base class's filters (abstract here, the base
class is not under the sources), the dataset term, and the score cutoff
filter unless one of the parsed sort fields is `random` or `doubt`. -/
def xref_get_filters (base_filters : List JVal) (dataset : Option String)
    (sorts : List (String × String)) : List JVal :=
  let filters := base_filters ++ [xref_dataset_term dataset]
  if !((sorts.map Prod.fst).contains "random") &&
      !((sorts.map Prod.fst).contains "doubt") then
    filters ++ [score_cutoff_filter]
  else filters

/-! ## Equality filters (`query/util.py`, `index/util.py`) -/

/-- Equality filter builder, translated from `field_filter_query`
(identical in `query/util.py` and `index/util.py`): no values match
everything, `_id`/`id` route to an ids query, `names` is rewritten to
`fingerprints`, a single value becomes a `term` filter and several values
a `terms` filter. -/
def field_filter_query (field : String) (values : List String) : JVal :=
  if values.isEmpty then match_all_query
  else if field = "_id" ∨ field = "id" then
    JVal.obj [("ids", JVal.obj [("values", JVal.arr (values.map JVal.str))])]
  else
    let field := if field = "names" then "fingerprints" else field
    match values with
    | [v] => JVal.obj [("term", JVal.obj [(field, JVal.str v)])]
    | _ => JVal.obj [("terms", JVal.obj [(field, JVal.arr (values.map JVal.str))])]

/-! ## Concrete fixtures for closed statements -/

/-- Default index configuration instance. -/
def cfg0 : IndexConfig := {}

/-- A trivial concrete instance of the external name-analysis library. -/
def lib0 : NameLib :=
  { symbols := fun _ => []
    name_keys := fun _ _ => []
    name_parts := fun _ _ => []
    phonetic := fun _ _ => [] }

/-- A trivial concrete fingerprint generator. -/
def fp0 : String → Option String := fun s => some s

/-- A concrete stand-in for the external `banal.hash_data`. -/
def hash0 : String × String × String → String :=
  fun t => t.1 ++ "|" ++ t.2.1 ++ "|" ++ t.2.2

/-- A concrete person entity. -/
def personEntity : Entity :=
  { id := "p1"
    schema := personSchema
    properties := [("name", ["Alice Doe"])]
    names := ["Alice Doe"]
    caption := "Alice Doe" }

/-- A concrete `Pages` entity carrying `indexText`, the full-text magic
property. -/
def pagesEntity : Entity :=
  { id := "pg1"
    schema := pagesSchema
    properties := [("title", ["My doc"]), ("indexText", ["lorem ipsum"])]
    names := []
    caption := "My doc" }

/-- A concrete entity with two `created_at` context timestamps and no
`updated_at`. -/
def datesEntity : Entity :=
  { id := "d1"
    schema := personSchema
    properties := []
    created_at := ["2001-01-01T00:00:00", "2003-01-01T00:00:00"] }

/-- Projection: the `_routing` of a legacy transformer result, `none` when
no action was produced. -/
def proxy_routing : ProxyResult → Option (Option String)
  | ProxyResult.ok a => some a.routing
  | _ => none

/-- Projection: the `_routing` of a transformer result, `none` when no
action was produced. -/
def result_routing : FormatResult → Option (Option String)
  | FormatResult.ok a => some a.routing
  | _ => none

/-- Projection: the `num_values` of a transformer result. -/
def result_num_values : FormatResult → Option Nat
  | FormatResult.ok a => some a.source.num_values
  | _ => none

/-- Projection: the `created_at` of a transformer result. -/
def result_created_at : FormatResult → Option (Option String)
  | FormatResult.ok a => some a.source.created_at
  | _ => none

/-- Projection: the `updated_at` of a transformer result. -/
def result_updated_at : FormatResult → Option (Option String)
  | FormatResult.ok a => some a.source.updated_at
  | _ => none

/-- Total count of leaf property values of an entity, as the claims state
it: the sum over all properties of the number of values. -/
def total_leaf_values_claimed (e : Entity) : Nat :=
  (e.properties.map (fun kv => kv.2.length)).sum

/-- Sum of the value counts of the entries stored under one property name. -/
def property_values_count (e : Entity) (k : String) : Nat :=
  ((e.properties.filter (fun kv => kv.1 = k)).map (fun kv => kv.2.length)).sum

/-- A concrete pending mapping fragment that tries to change the `type` of
a field. -/
def pendingEx : JVal :=
  JVal.obj [("type", JVal.str "keyword"), ("copy_to", JVal.str "text")]

/-- A concrete existing mapping fragment with a conflicting `type`. -/
def existingEx : JVal :=
  JVal.obj [("type", JVal.str "text")]

/-! ## Helper lemmas -/

theorem foldl_min_mem {α : Type} [LinearOrder α] (x : α) (xs : List α) :
    xs.foldl (fun a b => if b < a then b else a) x ∈ x :: xs := by
  induction xs generalizing x with
  | nil => simp
  | cons y ys ih =>
    have h := ih (if y < x then y else x)
    by_cases hy : y < x <;>
      simp only [List.foldl_cons, if_pos, if_neg, hy, List.mem_cons] at h ⊢ <;>
      tauto

theorem foldl_min_le {α : Type} [LinearOrder α] (x : α) (xs : List α) :
    ∀ y ∈ x :: xs, xs.foldl (fun a b => if b < a then b else a) x ≤ y := by
  induction xs generalizing x with
  | nil =>
    intro y hy
    simp at hy
    simp [hy]
  | cons z zs ih =>
    intro y hy
    have hx : (if z < x then z else x) ≤ x := by
      by_cases h : z < x <;> simp [h, le_of_lt]
    have hz : (if z < x then z else x) ≤ z := by
      by_cases h : z < x <;> simp [h, le_of_not_lt]
    have hbase := ih (if z < x then z else x) (if z < x then z else x)
      (List.mem_cons_self _ _)
    rcases List.mem_cons.mp hy with rfl | hy
    · exact le_trans hbase hx
    rcases List.mem_cons.mp hy with rfl | hy
    · exact le_trans hbase hz
    · exact ih (if z < x then z else x) y (List.mem_cons.mpr (Or.inr hy))

theorem foldl_max_mem {α : Type} [LinearOrder α] (x : α) (xs : List α) :
    xs.foldl (fun a b => if b > a then b else a) x ∈ x :: xs := by
  induction xs generalizing x with
  | nil => simp
  | cons y ys ih =>
    have h := ih (if y > x then y else x)
    by_cases hy : y > x <;>
      simp only [List.foldl_cons, if_pos, if_neg, hy, List.mem_cons] at h ⊢ <;>
      tauto

theorem foldl_max_ge {α : Type} [LinearOrder α] (x : α) (xs : List α) :
    ∀ y ∈ x :: xs, y ≤ xs.foldl (fun a b => if b > a then b else a) x := by
  induction xs generalizing x with
  | nil =>
    intro y hy
    simp at hy
    simp [hy]
  | cons z zs ih =>
    intro y hy
    have hx : x ≤ (if z > x then z else x) := by
      by_cases h : z > x <;> simp [h, le_of_lt]
    have hz : z ≤ (if z > x then z else x) := by
      by_cases h : z > x <;> simp [h, le_of_not_lt]
    have hbase := ih (if z > x then z else x) (if z > x then z else x)
      (List.mem_cons_self _ _)
    rcases List.mem_cons.mp hy with rfl | hy
    · exact le_trans hx hbase
    rcases List.mem_cons.mp hy with rfl | hy
    · exact le_trans hz hbase
    · exact ih (if z > x then z else x) y (List.mem_cons.mpr (Or.inr hy))

theorem py_min_spec {α : Type} [LinearOrder α] (l : List α) (m : α)
    (h : py_min l = some m) : m ∈ l ∧ ∀ y ∈ l, m ≤ y := by
  cases l with
  | nil => simp [py_min] at h
  | cons x xs =>
    simp only [py_min, Option.some.injEq] at h
    subst h
    exact ⟨foldl_min_mem x xs, foldl_min_le x xs⟩

theorem py_max_spec {α : Type} [LinearOrder α] (l : List α) (m : α)
    (h : py_max l = some m) : m ∈ l ∧ ∀ y ∈ l, y ≤ m := by
  cases l with
  | nil => simp [py_max] at h
  | cons x xs =>
    simp only [py_max, Option.some.injEq] at h
    subst h
    exact ⟨foldl_max_mem x xs, foldl_max_ge x xs⟩

theorem py_min_isSome {α : Type} [LinearOrder α] (l : List α) (h : l ≠ []) :
    (py_min l).isSome = true := by
  cases l with
  | nil => exact absurd rfl h
  | cons x xs => simp [py_min]

theorem py_max_isSome {α : Type} [LinearOrder α] (l : List α) (h : l ≠ []) :
    (py_max l).isSome = true := by
  cases l with
  | nil => exact absurd rfl h
  | cons x xs => simp [py_max]

theorem sum_filter_split (l : List (String × List String)) (k : String) :
    ((l.filter (fun kv => kv.1 ≠ k)).map (fun kv => kv.2.length)).sum +
      ((l.filter (fun kv => kv.1 = k)).map (fun kv => kv.2.length)).sum =
      (l.map (fun kv => kv.2.length)).sum := by
  induction l with
  | nil => simp
  | cons kv rest ih =>
    simp only [ne_eq, decide_not] at ih ⊢
    by_cases h : kv.1 = k <;> simp [List.filter_cons, h] <;> omega

/-! ## C1: schema bucket classification -/

/-- C1 counterexample: the claim puts the `Interval` check before the
`Thing` check and concludes that a schema that is both an `Interval` and a
`Thing` (but not a `Document` or page) lands in `intervals`; the `Event`
schema is exactly such a schema and `schema_bucket` classifies it as
`things`, because the source checks `Thing` before `Interval`. -/
theorem c1_schema_bucket_counterexample :
    eventSchema.isA "Interval" = true ∧ eventSchema.isA "Thing" = true ∧
    eventSchema.isA "Document" = false ∧
    PAGES.contains eventSchema.name = false ∧
    schema_bucket eventSchema = Bucket.things ∧
    schema_bucket_claimed eventSchema = Bucket.intervals ∧
    Bucket.things ≠ Bucket.intervals := by decide

/-- C1 (amended): `schema_bucket` returns `pages` for the schema names
`Page` and `Pages`; otherwise `documents` when the schema is a `Document`;
otherwise `things` when it is a `Thing`; otherwise `intervals` when it is
an `Interval`; and `things` as the catch-all -- the `Thing` check precedes
the `Interval` check, so a schema that is both is classified `things`. -/
theorem c1_schema_bucket_cases (s : FtmSchema) :
    (PAGES.contains s.name = true → schema_bucket s = Bucket.pages) ∧
    (PAGES.contains s.name = false → s.isA "Document" = true →
      schema_bucket s = Bucket.documents) ∧
    (PAGES.contains s.name = false → s.isA "Document" = false →
      s.isA "Thing" = true → schema_bucket s = Bucket.things) ∧
    (PAGES.contains s.name = false → s.isA "Document" = false →
      s.isA "Thing" = false → s.isA "Interval" = true →
      schema_bucket s = Bucket.intervals) ∧
    (PAGES.contains s.name = false → s.isA "Document" = false →
      s.isA "Thing" = false → s.isA "Interval" = false →
      schema_bucket s = Bucket.things) := by
  refine ⟨?_, ?_, ?_, ?_, ?_⟩ <;> intros <;> simp_all [schema_bucket]

/-- C1 witness: the amended case analysis applied to the concrete `Event`
schema, which is a `Thing` and an `Interval`. -/
theorem c1_schema_bucket_cases_witness : schema_bucket eventSchema = Bucket.things :=
  (c1_schema_bucket_cases eventSchema).2.2.1 (by decide) (by decide) (by decide)

/-! ## C2: routing of transformer actions -/

/-- C2 counterexample: for the valid dataset `mydataset` and the concrete
non-abstract person entity, the action returned by the legacy transformer
`format_proxy` carries no `_routing` key at all, while the claim demands
`_routing = mydataset` on the actions of both transformers. -/
theorem c2_routing_counterexample :
    valid_dataset "mydataset" = true ∧
    personEntity.schema.abstract = false ∧
    proxy_routing (format_proxy cfg0 fp0 personEntity "mydataset") = some none ∧
    some (some "mydataset") ≠ (some none : Option (Option String)) := by
  refine ⟨by decide, by decide, ?_, by decide⟩
  rfl

/-- C2 (amended): for every valid dataset and non-abstract entity,
`format_entity` returns an action whose `_routing` equals the dataset,
while `format_proxy` returns an action that carries no `_routing` key. -/
theorem c2_routing (cfg : IndexConfig) (lib : NameLib)
    (fpgen : String → Option String) (d : String) (e : Entity)
    (hd : valid_dataset d = true) (ha : e.schema.abstract = false) :
    result_routing (format_entity cfg lib d e) = some (some d) ∧
    proxy_routing (format_proxy cfg fpgen e d) = some none := by
  constructor
  · simp [format_entity, ha, hd, result_routing]
  · simp [format_proxy, ha, proxy_routing]

/-- C2 witness: the amended routing statement at the concrete person
entity and the dataset `mydataset`. -/
theorem c2_routing_witness :
    result_routing (format_entity cfg0 lib0 "mydataset" personEntity) =
      some (some "mydataset") ∧
    proxy_routing (format_proxy cfg0 fp0 personEntity "mydataset") = some none :=
  c2_routing cfg0 lib0 fp0 "mydataset" personEntity (by decide) (by decide)

/-! ## C5: the num_values counter -/

/-- C5 counterexample: the concrete `Pages` entity has two leaf property
values in total (`title` and `indexText`), but `format_entity` pops the
`indexText` values into `text` before counting, so the produced
`num_values` is 1, not the claimed total of 2. -/
theorem c5_num_values_counterexample :
    result_num_values (format_entity cfg0 lib0 "mydataset" pagesEntity) = some 1 ∧
    total_leaf_values_claimed pagesEntity = 2 ∧ (1 : Nat) ≠ 2 := by
  refine ⟨by rfl, by rfl, by decide⟩

/-- C5 (amended): for every valid dataset and non-abstract entity, the
`num_values` of the produced document plus the number of values of the
`indexText` property (which is moved into `text` before counting) equals
the total count of leaf property values of the entity. -/
theorem c5_num_values (cfg : IndexConfig) (lib : NameLib) (d : String)
    (e : Entity) (hd : valid_dataset d = true) (ha : e.schema.abstract = false) :
    (result_num_values (format_entity cfg lib d e)).isSome = true ∧
    ∀ n, result_num_values (format_entity cfg lib d e) = some n →
      n + property_values_count e "indexText" = total_leaf_values_claimed e := by
  have hred : result_num_values (format_entity cfg lib d e) =
      some (((plist_pop e.properties "indexText").map (fun kv => kv.2.length)).sum) := by
    simp [format_entity, ha, hd, result_num_values]
  refine ⟨by simp [hred], ?_⟩
  intro n hn
  rw [hred] at hn
  obtain rfl := (Option.some.inj hn).symm
  unfold plist_pop property_values_count total_leaf_values_claimed
  exact sum_filter_split e.properties "indexText"

/-- C5 witness: the amended counting statement at the concrete `Pages`
entity (1 counted value plus 1 popped `indexText` value equals the total
of 2). -/
theorem c5_num_values_witness :
    1 + property_values_count pagesEntity "indexText" =
      total_leaf_values_claimed pagesEntity :=
  (c5_num_values cfg0 lib0 "mydataset" pagesEntity (by decide) (by decide)).2
    1 (by rfl)

/-! ## C6: created_at and updated_at reduction -/

/-- Evaluation of the transformer's date fields on the concrete entity
with two `created_at` timestamps and no `updated_at`. -/
theorem datesEntity_eval :
    result_created_at (format_entity cfg0 lib0 "mydataset" datesEntity) =
      some (some "2001-01-01T00:00:00") ∧
    result_updated_at (format_entity cfg0 lib0 "mydataset" datesEntity) =
      some (some "2003-01-01T00:00:00") := by
  have h31 : ¬ ("2003-01-01T00:00:00" : String) < "2001-01-01T00:00:00" := by
    rw [String.lt_iff_toList_lt]
    decide
  have h13 : ("2001-01-01T00:00:00" : String) < "2003-01-01T00:00:00" := by
    rw [String.lt_iff_toList_lt]
    decide
  constructor
  · simp [format_entity, datesEntity, result_created_at, py_min, valid_dataset,
      personSchema, h31]
    decide
  · simp [format_entity, datesEntity, result_updated_at, py_max, valid_dataset,
      personSchema, gt_iff_lt, h13, h31]
    decide

/-- C6 counterexample: an entity with the two `created_at` context
timestamps 2001 and 2003 and no `updated_at`. The produced document has
`created_at = 2001` (the minimum) but `updated_at = 2003` (the maximum of
the `created_at` list), so `updated_at` does not equal the document's
`created_at` as the claim states for the no-`updated_at` case. -/
theorem c6_dates_counterexample :
    datesEntity.updated_at = [] ∧
    result_created_at (format_entity cfg0 lib0 "mydataset" datesEntity) =
      some (some "2001-01-01T00:00:00") ∧
    result_updated_at (format_entity cfg0 lib0 "mydataset" datesEntity) =
      some (some "2003-01-01T00:00:00") ∧
    ("2003-01-01T00:00:00" : String) ≠ "2001-01-01T00:00:00" := by
  refine ⟨by rfl, datesEntity_eval.1, datesEntity_eval.2, by decide⟩

/-- C6 (amended): for every valid dataset and non-abstract entity,
`format_entity` sets the document's `created_at` to the minimum of the
observed `created_at` timestamps (absent when none), and sets `updated_at`
to the maximum of the observed `updated_at` timestamps, or to the maximum
of the `created_at` timestamps when no `updated_at` was observed, and
leaves it absent when neither was observed. -/
theorem c6_dates (cfg : IndexConfig) (lib : NameLib) (d : String) (e : Entity)
    (hd : valid_dataset d = true) (ha : e.schema.abstract = false) :
    (e.created_at = [] → result_created_at (format_entity cfg lib d e) = some none) ∧
    (∀ m, result_created_at (format_entity cfg lib d e) = some (some m) →
      m ∈ e.created_at ∧ ∀ x ∈ e.created_at, m ≤ x) ∧
    (e.created_at ≠ [] →
      ∃ m, result_created_at (format_entity cfg lib d e) = some (some m)) ∧
    (e.updated_at ≠ [] →
      ∀ u, result_updated_at (format_entity cfg lib d e) = some (some u) →
        u ∈ e.updated_at ∧ ∀ x ∈ e.updated_at, x ≤ u) ∧
    (e.updated_at = [] →
      ∀ u, result_updated_at (format_entity cfg lib d e) = some (some u) →
        u ∈ e.created_at ∧ ∀ x ∈ e.created_at, x ≤ u) ∧
    (e.updated_at = [] → e.created_at ≠ [] →
      ∃ u, result_updated_at (format_entity cfg lib d e) = some (some u)) ∧
    (e.updated_at = [] → e.created_at = [] →
      result_updated_at (format_entity cfg lib d e) = some none) := by
  have hc : result_created_at (format_entity cfg lib d e) =
      some (py_min e.created_at) := by
    simp [format_entity, ha, hd, result_created_at]
  have hu : result_updated_at (format_entity cfg lib d e) =
      some (py_max (if e.updated_at.isEmpty then e.created_at else e.updated_at)) := by
    simp [format_entity, ha, hd, result_updated_at]
  refine ⟨?_, ?_, ?_, ?_, ?_, ?_, ?_⟩
  · intro h
    rw [hc, h]
    rfl
  · intro m hm
    rw [hc] at hm
    exact py_min_spec e.created_at m (Option.some.inj hm)
  · intro h
    obtain ⟨m, hm⟩ := Option.isSome_iff_exists.mp (py_min_isSome e.created_at h)
    exact ⟨m, by rw [hc, hm]⟩
  · intro hne u hu'
    have h0 : e.updated_at.isEmpty = false := by
      simpa [List.isEmpty_iff] using hne
    rw [hu, h0] at hu'
    simp only [Bool.false_eq_true, if_false] at hu'
    exact py_max_spec e.updated_at u (Option.some.inj hu')
  · intro hupd u hu'
    rw [hu, hupd] at hu'
    simp only [List.isEmpty_nil, if_true] at hu'
    exact py_max_spec e.created_at u (Option.some.inj hu')
  · intro hupd hne
    obtain ⟨u, hm⟩ := Option.isSome_iff_exists.mp (py_max_isSome e.created_at hne)
    refine ⟨u, ?_⟩
    rw [hu, hupd]
    simp only [List.isEmpty_nil, if_true]
    rw [hm]
  · intro hupd hcre
    rw [hu, hupd, hcre]
    rfl

/-- C6 witness: the amended statement at the concrete entity with two
`created_at` timestamps and no `updated_at`: the fallback `updated_at`
2003 is a member of the `created_at` list and an upper bound of it. -/
theorem c6_dates_witness :
    "2003-01-01T00:00:00" ∈ datesEntity.created_at ∧
    ∀ x ∈ datesEntity.created_at, x ≤ "2003-01-01T00:00:00" :=
  (c6_dates cfg0 lib0 "mydataset" datesEntity (by decide) (by decide)).2.2.2.2.1
    (by rfl) "2003-01-01T00:00:00" datesEntity_eval.2


/-! ## C3: merge-safe mapping rewriting -/

theorem jget_eq_of_find_some {l : List (String × JVal)} {k : String}
    {kv : String × JVal} (h : l.find? (fun x => x.1 = k) = some kv) :
    jget l k = kv.2 := by
  unfold jget
  rw [h]

theorem jget_eq_of_find_eq {l l' : List (String × JVal)} {k : String}
    (h : l.find? (fun x => x.1 = k) = l'.find? (fun x => x.1 = k)) :
    jget l k = jget l' k := by
  unfold jget
  rw [h]

theorem find_rewrite_entries (ps es : List (String × JVal)) (k : String) :
    (rewrite_entries ps es).find? (fun kv => kv.1 = k) =
      (ps.find? (fun kv => kv.1 = k)).map
        (fun kv => (kv.1,
          if IMMUTABLE.contains kv.1 && !(jget es kv.1).isNull then jget es kv.1
          else rewrite_mapping_safe kv.2 (jget es kv.1))) := by
  induction ps with
  | nil => simp [rewrite_entries]
  | cons kv rest ih =>
    obtain ⟨x, v⟩ := kv
    by_cases h : x = k
    · subst h
      simp [rewrite_entries, List.find?_cons]
    · simp [rewrite_entries, List.find?_cons, h, ih]

theorem find_filter_of_imp {α : Type} (l : List α) (p q : α → Bool)
    (h : ∀ x, p x = true → q x = true) : (l.filter q).find? p = l.find? p := by
  induction l with
  | nil => rfl
  | cons x xs ih =>
    by_cases hq : q x = true
    · by_cases hp : p x = true <;>
        simp [List.filter_cons, hq, List.find?_cons, hp, ih]
    · have hq' : q x = false := by
        revert hq
        cases q x <;> simp
      have hp : p x = false := by
        cases hpx : p x
        · rfl
        · exact absurd (h x hpx) hq
      simp [List.filter_cons, hq', List.find?_cons, hp, ih]

/-- C3 counterexample: for the pending fragment `{type: keyword, copy_to:
text}` against the existing fragment `{type: text}`, the rewriter
suppresses the pending change of the immutable key `type` (the merged
value stays `text`, not `keyword`) -- yet the emitted log warnings are
empty, because `rewrite_mapping_safe` contains no log statement, while the
claim asserts a warning is emitted on suppression. -/
theorem c3_rewrite_mapping_counterexample :
    (rewrite_mapping_safe pendingEx existingEx).get "type" = JVal.str "text" ∧
    pendingEx.get "type" = JVal.str "keyword" ∧
    JVal.str "text" ≠ JVal.str "keyword" ∧
    rewrite_mapping_warnings pendingEx existingEx = [] := by
  refine ⟨by rfl, by rfl, by simp, by rfl⟩

/-- C3 (amended): the merged mapping takes, for every key present in both
the pending and the existing dict whose name is immutable (`type`,
`analyzer`, `normalizer`, `index`, `store`), the value from the existing
dict; for every other pending key the recursively merged pending value;
and for every key only present in the existing dict the existing value --
with no warning emitted (the suppression of immutable drift is silent). -/
theorem c3_rewrite_mapping (ps es : List (String × JVal)) (k : String) :
    (∀ kv, ps.find? (fun x => x.1 = k) = some kv →
      IMMUTABLE.contains k = true → (jget es k).isNull = false →
      (rewrite_mapping_safe (JVal.obj ps) (JVal.obj es)).get k = jget es k) ∧
    (∀ kv, ps.find? (fun x => x.1 = k) = some kv →
      (IMMUTABLE.contains k = false ∨ (jget es k).isNull = true) →
      (rewrite_mapping_safe (JVal.obj ps) (JVal.obj es)).get k =
        rewrite_mapping_safe kv.2 (jget es k)) ∧
    (ps.find? (fun x => x.1 = k) = none →
      (rewrite_mapping_safe (JVal.obj ps) (JVal.obj es)).get k = jget es k) ∧
    rewrite_mapping_warnings (JVal.obj ps) (JVal.obj es) = [] := by
  have hobj : (rewrite_mapping_safe (JVal.obj ps) (JVal.obj es)).get k =
      jget (rewrite_entries ps es ++
        es.filter (fun kv => ps.all (fun pv => pv.1 ≠ kv.1))) k := by
    simp [rewrite_mapping_safe, JVal.get]
  refine ⟨?_, ?_, ?_, rfl⟩
  · intro kv hfind himm hnull
    have hk : kv.1 = k := by
      have := List.find?_some hfind
      simpa using this
    have hkey : (rewrite_entries ps es ++
        es.filter (fun kv => ps.all (fun pv => pv.1 ≠ kv.1))).find?
          (fun x => x.1 = k) = some (k, jget es k) := by
      have himm' : k ∈ IMMUTABLE := by simpa using himm
      rw [List.find?_append, find_rewrite_entries, hfind]
      simp [hk, himm', hnull]
    rw [hobj, jget_eq_of_find_some hkey]
  · intro kv hfind hother
    have hk : kv.1 = k := by
      have := List.find?_some hfind
      simpa using this
    have hkey : (rewrite_entries ps es ++
        es.filter (fun kv => ps.all (fun pv => pv.1 ≠ kv.1))).find?
          (fun x => x.1 = k) =
          some (k, rewrite_mapping_safe kv.2 (jget es k)) := by
      rw [List.find?_append, find_rewrite_entries, hfind]
      rcases hother with h | h
      · have h' : k ∉ IMMUTABLE := by simpa using h
        simp [hk, h']
      · simp [hk, h]
    rw [hobj, jget_eq_of_find_some hkey]
  · intro hfind
    have hkey : (rewrite_entries ps es ++
        es.filter (fun kv => ps.all (fun pv => pv.1 ≠ kv.1))).find?
          (fun x => x.1 = k) = es.find? (fun x => x.1 = k) := by
      rw [List.find?_append, find_rewrite_entries, hfind]
      simp only [Option.map_none', Option.none_or]
      apply find_filter_of_imp
      intro x hx
      have hxk : x.1 = k := of_decide_eq_true hx
      refine List.all_eq_true.mpr ?_
      intro pv hpv
      have hne := List.find?_eq_none.mp hfind pv hpv
      simp only [decide_eq_true_eq] at hne
      simp [hxk, hne]
    rw [hobj, jget_eq_of_find_eq hkey]

/-- C3 witness: the amended merge statement at the concrete pending and
existing fragments, key `type`: the existing value wins and no warning is
emitted. -/
theorem c3_rewrite_mapping_witness :
    (rewrite_mapping_safe (JVal.obj [("type", JVal.str "keyword"),
        ("copy_to", JVal.str "text")])
      (JVal.obj [("type", JVal.str "text")])).get "type" =
      jget [("type", JVal.str "text")] "type" :=
  (c3_rewrite_mapping [("type", JVal.str "keyword"), ("copy_to", JVal.str "text")]
      [("type", JVal.str "text")] "type").1
    ("type", JVal.str "keyword") (by rfl) (by decide) (by rfl)

/-! ## C4: authorization filter -/

/-- C4: the authorization query builder returns `match_all` for admins;
otherwise `match_none` for an empty dataset set; otherwise a `terms`
filter on the given field -- which defaults to `dataset` -- containing
exactly the user's datasets. -/
theorem c4_datasets_query (auth : SearchAuth) (field : String) :
    (auth.is_admin = true →
      SearchAuth.datasets_query auth field = match_all_query) ∧
    (auth.is_admin = false → auth.datasets = [] →
      SearchAuth.datasets_query auth field = match_none_query) ∧
    (auth.is_admin = false → auth.datasets ≠ [] →
      SearchAuth.datasets_query auth field =
        JVal.obj [("terms",
          JVal.obj [(field, JVal.arr (auth.datasets.map JVal.str))])]) ∧
    SearchAuth.datasets_query auth = SearchAuth.datasets_query auth "dataset" := by
  refine ⟨?_, ?_, ?_, rfl⟩
  · intro h
    simp [SearchAuth.datasets_query, auth_datasets_query, datasets_query, h]
  · intro h1 h2
    simp [SearchAuth.datasets_query, auth_datasets_query, datasets_query, h1, h2]
  · intro h1 h2
    have h3 : auth.datasets.isEmpty = false := by
      simpa [List.isEmpty_iff] using h2
    simp [SearchAuth.datasets_query, auth_datasets_query, datasets_query, h1, h3]

/-- C4 witness: the builder at a non-admin auth context with two datasets
and the defaulted field. -/
theorem c4_datasets_query_witness :
    SearchAuth.datasets_query
        { datasets := ["d1", "d2"], is_admin := false } "dataset" =
      JVal.obj [("terms",
        JVal.obj [("dataset", JVal.arr [JVal.str "d1", JVal.str "d2"])])] :=
  (c4_datasets_query { datasets := ["d1", "d2"], is_admin := false }
    "dataset").2.2.1 (by rfl) (by simp)

/-! ## C7: source-field exclusion -/

/-- C7 counterexample: the per-bucket mapping emitted by
`configure_schema_bucket` excludes only `text` and `fingerprints` from the
`_source`, so its excludes list contains neither the synthesized name
fields nor the group fields that the claim requires (shown for `names` and
`countries` on the `things` bucket). -/
theorem c7_source_excludes_counterexample :
    mapping_excludes (configure_schema_bucket_mapping Bucket.things []) =
      some ["text", "fingerprints"] ∧
    "names" ∉ ["text", "fingerprints"] ∧
    "countries" ∉ ["text", "fingerprints"] := by
  refine ⟨by rfl, by decide, by decide⟩

theorem filterMap_str_id (l : List String) :
    List.filterMap
      ((fun v => match v with | JVal.str s => some s | _ => none) ∘ JVal.str)
      l = l := by
  induction l with
  | nil => rfl
  | cons x xs ih => simp [List.filterMap_cons, Function.comp, ih]

/-- C7 (amended): the `_source.excludes` of the mapping emitted by
`make_mapping` is exactly `SOURCE_EXCLUDES`, which contains every group
field of the registry, the field `text`, and every synthesized name field
(`names`, `name_keys`, `name_parts`, `name_symbols`, `name_phonetic`);
the legacy `configure_schema_bucket` excludes only `text` and
`fingerprints`. -/
theorem c7_source_excludes (groups : List String) (props : List (String × JVal))
    (g : String) (hg : g ∈ groups) :
    mapping_excludes (make_mapping groups props) = some (SOURCE_EXCLUDES groups) ∧
    g ∈ SOURCE_EXCLUDES groups ∧
    "text" ∈ SOURCE_EXCLUDES groups ∧
    "names" ∈ SOURCE_EXCLUDES groups ∧
    "name_keys" ∈ SOURCE_EXCLUDES groups ∧
    "name_parts" ∈ SOURCE_EXCLUDES groups ∧
    "name_symbols" ∈ SOURCE_EXCLUDES groups ∧
    "name_phonetic" ∈ SOURCE_EXCLUDES groups ∧
    ∀ b : Bucket, mapping_excludes (configure_schema_bucket_mapping b props) =
      some ["text", "fingerprints"] := by
  refine ⟨?_, ?_, ?_, ?_, ?_, ?_, ?_, ?_, fun _ => rfl⟩
  · simp [mapping_excludes, make_mapping, JVal.get, jget, List.filterMap_map]
    exact filterMap_str_id (SOURCE_EXCLUDES groups)
  all_goals simp [SOURCE_EXCLUDES, hg]

/-- C7 witness: the amended exclusion statement at the concrete registry
group list and the group field `countries`. -/
theorem c7_source_excludes_witness :
    mapping_excludes (make_mapping ftmGroups []) = some (SOURCE_EXCLUDES ftmGroups) ∧
    "countries" ∈ SOURCE_EXCLUDES ftmGroups :=
  ⟨(c7_source_excludes ftmGroups [] "countries" (by decide)).1,
   (c7_source_excludes ftmGroups [] "countries" (by decide)).2.1⟩

/-! ## C8: xref record identity -/

theorem store_count_put (s : DocStore) (a : XrefAction) :
    store_count (store_put s a) (a.index, a.id) = 1 := by
  unfold store_count store_put
  have hnil : ((s.filter (fun kv => kv.1 ≠ (a.index, a.id))).filter
      (fun kv => kv.1 = (a.index, a.id))) = [] := by
    rw [List.filter_filter]
    apply List.filter_eq_nil_iff.mpr
    intro x _
    simp
  simp [List.filter_cons, hnil]

/-- C8: the xref action's `_id` is the external hash applied to exactly
the triple (entity id, collection id, match id): two match rows with the
same triple yield the same `_id` and `_index` regardless of their scores,
random draws or timestamps, and writing both to the keyed document store
leaves exactly one record under that key. -/
theorem c8_xref_id (h : String × String × String → String) (cfg : IndexConfig)
    (now1 now2 : String) (r1 r2 : Int) (cid : String) (m1 m2 : XrefMatchRow)
    (he : m1.entity.id = m2.entity.id) (hm : m1.matched.id = m2.matched.id) :
    (xref_action h cfg now1 r1 cid m1).id = (xref_action h cfg now2 r2 cid m2).id ∧
    (xref_action h cfg now1 r1 cid m1).index =
      (xref_action h cfg now2 r2 cid m2).index ∧
    ∀ s : DocStore,
      store_count
        (store_put (store_put s (xref_action h cfg now1 r1 cid m1))
          (xref_action h cfg now2 r2 cid m2))
        ((xref_action h cfg now2 r2 cid m2).index,
          (xref_action h cfg now2 r2 cid m2).id) = 1 := by
  refine ⟨by simp [xref_action, he, hm], rfl, ?_⟩
  intro s
  exact store_count_put _ _

/-- C8 witness: two concrete match rows over the same entity pair with
different scores, random draws and timestamps produce the same `_id`, and
re-writing leaves a single stored record. -/
theorem c8_xref_id_witness :
    (xref_action hash0 cfg0 "t1" 7 "coll"
        { entity := { id := "e1", caption := "E" },
          matched := { id := "m1", caption := "M" }, score := 9 / 10 }).id =
      (xref_action hash0 cfg0 "t2" 8 "coll"
        { entity := { id := "e1", caption := "E" },
          matched := { id := "m1", caption := "M" }, score := 3 / 10 }).id ∧
    store_count
      (store_put (store_put []
          (xref_action hash0 cfg0 "t1" 7 "coll"
            { entity := { id := "e1", caption := "E" },
              matched := { id := "m1", caption := "M" }, score := 9 / 10 }))
        (xref_action hash0 cfg0 "t2" 8 "coll"
          { entity := { id := "e1", caption := "E" },
            matched := { id := "m1", caption := "M" }, score := 3 / 10 }))
      ((xref_action hash0 cfg0 "t2" 8 "coll"
          { entity := { id := "e1", caption := "E" },
            matched := { id := "m1", caption := "M" }, score := 3 / 10 }).index,
        (xref_action hash0 cfg0 "t2" 8 "coll"
          { entity := { id := "e1", caption := "E" },
            matched := { id := "m1", caption := "M" }, score := 3 / 10 }).id) = 1 :=
  ⟨(c8_xref_id hash0 cfg0 "t1" "t2" 7 8 "coll" _ _ (by rfl) (by rfl)).1,
   (c8_xref_id hash0 cfg0 "t1" "t2" 7 8 "coll" _ _ (by rfl) (by rfl)).2.2 []⟩

/-! ## C9: xref query compilation -/

theorem xref_dataset_term_ne_cutoff (ds : Option String) :
    xref_dataset_term ds ≠ score_cutoff_filter := by
  cases ds <;> simp [xref_dataset_term, score_cutoff_filter]

/-- C9: the compiled xref filter list contains the score cutoff filter
`score > 0.5` exactly when none of the parsed sort fields is `random` or
`doubt` (provided the base filters do not already carry the cutoff
filter); the default sort is score descending; and the authorization of
the base class is applied on `AUTHZ_FIELD = match_dataset`. -/
theorem c9_xref_query (base : List JVal) (ds : Option String)
    (sorts : List (String × String)) (auth : SearchAuth)
    (hb : score_cutoff_filter ∉ base) :
    (score_cutoff_filter ∈ xref_get_filters base ds sorts ↔
      ∀ p ∈ sorts, p.1 ≠ "random" ∧ p.1 ≠ "doubt") ∧
    XrefQuery_SORT_DEFAULT = [JVal.obj [("score", JVal.str "desc")]] ∧
    XrefQuery_AUTHZ_FIELD = "match_dataset" ∧
    query_authz_filter auth XrefQuery_AUTHZ_FIELD =
      datasets_query auth.datasets "match_dataset" auth.is_admin := by
  refine ⟨?_, rfl, rfl, rfl⟩
  unfold xref_get_filters
  by_cases hr : "random" ∈ sorts.map Prod.fst
  · have hc : (sorts.map Prod.fst).contains "random" = true := by simpa using hr
    rw [hc]
    simp only [Bool.not_true, Bool.false_and, if_false]
    constructor
    · intro hmem
      rcases List.mem_append.mp hmem with hmem | hmem
      · exact absurd hmem hb
      · exact absurd (List.mem_singleton.mp hmem).symm
          (xref_dataset_term_ne_cutoff ds)
    · intro hall
      obtain ⟨p, hp, hfst⟩ := List.mem_map.mp hr
      exact absurd hfst ((hall p hp).1)
  · have hc : (sorts.map Prod.fst).contains "random" = false := by simpa using hr
    rw [hc]
    by_cases hd : "doubt" ∈ sorts.map Prod.fst
    · have hc2 : (sorts.map Prod.fst).contains "doubt" = true := by simpa using hd
      rw [hc2]
      simp only [Bool.not_false, Bool.not_true, Bool.true_and, if_false]
      constructor
      · intro hmem
        rcases List.mem_append.mp hmem with hmem | hmem
        · exact absurd hmem hb
        · exact absurd (List.mem_singleton.mp hmem).symm
            (xref_dataset_term_ne_cutoff ds)
      · intro hall
        obtain ⟨p, hp, hfst⟩ := List.mem_map.mp hd
        exact absurd hfst ((hall p hp).2)
    · have hc2 : (sorts.map Prod.fst).contains "doubt" = false := by simpa using hd
      rw [hc2]
      simp only [Bool.not_false, Bool.true_and, if_true]
      constructor
      · intro _ p hp
        constructor
        · intro hfst
          exact hr (List.mem_map.mpr ⟨p, hp, hfst⟩)
        · intro hfst
          exact hd (List.mem_map.mpr ⟨p, hp, hfst⟩)
      · intro _
        exact List.mem_append.mpr (Or.inr (List.mem_singleton.mpr rfl))

/-- C9 witness: the compiled filter list at a score sort (neither `random`
nor `doubt`) contains the cutoff filter. -/
theorem c9_xref_query_witness :
    score_cutoff_filter ∈
      xref_get_filters [] (some "ds1") [("score", "desc")] :=
  ((c9_xref_query [] (some "ds1") [("score", "desc")]
      { datasets := ["a"] } (by simp)).1).mpr (by decide)

/-! ## C10: equality filter builder -/

/-- C10: the equality-filter builder returns `match_all` for an empty
value list; an `ids` query for the fields `_id` and `id`; rewrites the
field `names` to `fingerprints`; and produces a `term` filter for exactly
one value and a `terms` filter for two or more. -/
theorem c10_field_filter_query (field : String) (values : List String) :
    (values = [] → field_filter_query field values = match_all_query) ∧
    (values ≠ [] → (field = "_id" ∨ field = "id") →
      field_filter_query field values =
        JVal.obj [("ids", JVal.obj [("values", JVal.arr (values.map JVal.str))])]) ∧
    (∀ v, values = [v] → ¬(field = "_id" ∨ field = "id") →
      field_filter_query field values =
        JVal.obj [("term", JVal.obj
          [((if field = "names" then "fingerprints" else field), JVal.str v)])]) ∧
    (2 ≤ values.length → ¬(field = "_id" ∨ field = "id") →
      field_filter_query field values =
        JVal.obj [("terms", JVal.obj
          [((if field = "names" then "fingerprints" else field),
            JVal.arr (values.map JVal.str))])]) := by
  refine ⟨?_, ?_, ?_, ?_⟩
  · intro h
    subst h
    rfl
  · intro hne hid
    cases values with
    | nil => exact absurd rfl hne
    | cons v vs => rcases hid with h | h <;> subst h <;> simp [field_filter_query]
  · intro v hv hnid
    subst hv
    simp [field_filter_query, hnid]
  · intro hlen hnid
    match values, hlen with
    | v :: w :: rest, _ => simp [field_filter_query, hnid]

/-- C10 witness: the builder at the field `names` with a single value is a
`term` filter on the rewritten field `fingerprints`. -/
theorem c10_field_filter_query_witness :
    field_filter_query "names" ["Alice Doe"] =
      JVal.obj [("term", JVal.obj [("fingerprints", JVal.str "Alice Doe")])] := by
  have h := (c10_field_filter_query "names" ["Alice Doe"]).2.2.1
    "Alice Doe" (by rfl) (by decide)
  simpa using h
